import Mathlib

/-!
Verification of the semantic-match engine of the university chatbot backend.

The development shallowly embeds the query path (`app/chatbot.py`) and the
rebuild path (`app/routes/retrain_route.py`). Embedding vectors are modelled
as lists of rationals (exact stand-ins for the float32 vectors), the
text-to-vector embedding function is an abstract parameter of type
`String → Option (List ℚ)` (with `none` standing for a raised exception), and
the FAISS `IndexFlatL2.search` call with `k = 1` is modelled from the spec
(squared Euclidean distance, exact linear scan, first-minimum tie-break,
`-1` sentinel on an empty index) since the library code is external to the
repository.
-/

/-- One record of `faq_data.json`: a question/answer pair. -/
structure FaqRecord where
  question : String
  answer : String
deriving DecidableEq

/-- The persisted snapshot: the rows of `app/data/faiss_index.index` together
with the parsed contents of `app/data/faq_data.json`. -/
structure Snapshot where
  faiss_index : List (List ℚ)
  faq_json : List FaqRecord
deriving DecidableEq

/-- The module-level globals of `app/chatbot.py`: `index` and `faq_data`,
each initialised to `None` and assigned by `load_faiss_and_faq`. -/
structure ChatbotGlobals where
  index : Option (List (List ℚ))
  faq_data : Option (List FaqRecord)
deriving DecidableEq

/-- The fixed user-facing fallback string returned by `query_bot` on any
failure or low-confidence match. -/
def FALLBACK_MESSAGE : String :=
  "I'm sorry, I couldn't find a relevant answer to your question. Please try rephrasing or contact support."

/-- The distance threshold; the source sets `DISTANCE_THRESHOLD = 1.0`
locally inside `query_bot`. -/
def DISTANCE_THRESHOLD : ℚ := 1

/-- Squared Euclidean distance between two vectors (the metric of
`faiss.IndexFlatL2`). -/
def sqdist (u v : List ℚ) : ℚ :=
  (List.zipWith (fun a b => (a - b) * (a - b)) u v).sum

/-- Modelled from the spec: the exact linear scan behind
`faiss.IndexFlatL2.search` (the FAISS library itself is not part of the
repository). Scans the stored vectors from position `i` upward and returns
the position of the minimal squared distance to `q` together with that
distance, preferring the smallest position among equal minima. -/
def nearestFrom (q : List ℚ) : List (List ℚ) → Nat → Option (Nat × ℚ)
  | [], _ => none
  | v :: rest, i =>
    match nearestFrom q rest (i + 1) with
    | none => some (i, sqdist q v)
    | some (j, e) => if e < sqdist q v then some (j, e) else some (i, sqdist q v)

/-- The value FAISS reports as the distance when an index holds fewer than
`k` vectors (`FLT_MAX`). -/
def FAISS_FLT_MAX : ℚ := 340282346638528859811704183484516925440

/-- Modelled from the spec: `index.search(embedding, k=1)` as used in
`query_bot`, returning the pair `(D[0][0], I[0][0])`. On an empty index
FAISS reports the sentinel label `-1` with distance `FLT_MAX`. -/
def faiss_search (vecs : List (List ℚ)) (query : List ℚ) : ℚ × Int :=
  match nearestFrom query vecs 0 with
  | some (p, d) => (d, (p : Int))
  | none => (FAISS_FLT_MAX, -1)

/-- The pure classification step of `query_bot` once the globals have been
read and the query embedded: run the nearest-neighbour search, apply the
bounds and threshold guard, and either return the matched answer or the
fallback. Mirrors lines 32-39 of `app/chatbot.py`. -/
def answer_of (vecs : List (List ℚ)) (faq_data : List FaqRecord)
    (embedding : List ℚ) : String :=
  let res := faiss_search vecs embedding
  let distance := res.1
  let matched_index := res.2
  if matched_index < 0 ∨ matched_index ≥ (faq_data.length : Int) ∨
      distance > DISTANCE_THRESHOLD then
    FALLBACK_MESSAGE
  else
    match faq_data[matched_index.toNat]? with
    | some entry => entry.answer
    | none => FALLBACK_MESSAGE

/-- `load_faiss_and_faq`: reads the persisted snapshot and assigns both
globals. The source performs no validation of any kind on the two artifacts
beyond successful parsing; in particular it never compares the index row
count with the metadata record count. -/
def load_faiss_and_faq (snap : Snapshot) : ChatbotGlobals :=
  { index := some snap.faiss_index, faq_data := some snap.faq_json }

/-- The `if index is None or faq_data is None: load_faiss_and_faq()` guard
at the top of `query_bot`. -/
def ensure_loaded (g : ChatbotGlobals) (snap : Snapshot) : ChatbotGlobals :=
  if g.index.isNone || g.faq_data.isNone then load_faiss_and_faq snap else g

/-- `query_bot`: reload the globals if absent, embed the question, search,
guard, and answer. `get_embedding` returning `none` models an exception in
the embedding call; every exception raised inside the `try` block is caught
by the blanket `except` and turned into the fallback string. -/
def query_bot (get_embedding : String → Option (List ℚ)) (g : ChatbotGlobals)
    (snap : Snapshot) (user_question : String) : String :=
  let g1 := ensure_loaded g snap
  match g1.index, g1.faq_data with
  | some vecs, some faq_data =>
    match get_embedding user_question with
    | none => FALLBACK_MESSAGE
    | some embedding => answer_of vecs faq_data embedding
  | _, _ => FALLBACK_MESSAGE

/-- The contents of `app/data/faq_lookup.json` as written by `retrain_index`
(timestamp field omitted; `total_faqs` is determined by `questions.length`). -/
structure LookupData where
  questions : List String
  answers : List String
deriving DecidableEq

/-- The state touched by the retrain route: the FAQ database collection
(`none` models an unavailable connection), the three persisted artifacts
under `app/data/`, and the in-memory globals of the chatbot module. -/
structure World where
  db : Option (List FaqRecord)
  disk_index : List (List ℚ)
  disk_lookup : LookupData
  disk_faq : List FaqRecord
  mem : ChatbotGlobals
deriving DecidableEq

/-- The four outcomes of `POST /retrain`: HTTP 503 when the database handle
is `None`, the `{"status": "No data to retrain", "count": 0}` body on an
empty corpus, the success body with its FAQ count, and the HTTP 500 raised
by the blanket `except` (in particular when the embedding model fails). -/
inductive RetrainResult where
  | dbUnavailable : RetrainResult
  | noData : RetrainResult
  | success : Nat → RetrainResult
  | retrainFailed : RetrainResult
deriving DecidableEq

/-- `model.encode(texts)`: the batch embedding call, one vector per input
text; `none` models an exception escaping the call. -/
def encodeBatch (get_embedding : String → Option (List ℚ)) :
    List String → Option (List (List ℚ))
  | [] => some []
  | t :: ts =>
    match get_embedding t, encodeBatch get_embedding ts with
    | some v, some vs => some (v :: vs)
    | _, _ => none

/-- `retrain_index` (`POST /retrain`): fetch the corpus, refuse an empty
one, embed every question, write the index blob and the two JSON artifacts,
then reload the in-memory globals from the freshly written snapshot.
An embedding failure raises before any artifact is written, so the whole
world is left unchanged in that case. -/
def retrain_index (get_embedding : String → Option (List ℚ)) (w : World) :
    RetrainResult × World :=
  match w.db with
  | none => (RetrainResult.dbUnavailable, w)
  | some faqs =>
    if faqs = [] then (RetrainResult.noData, w)
    else
      let texts := faqs.map (fun f => f.question)
      let answers := faqs.map (fun f => f.answer)
      match encodeBatch get_embedding texts with
      | none => (RetrainResult.retrainFailed, w)
      | some vectors =>
        let faq_data := (List.zip texts answers).map (fun p => FaqRecord.mk p.1 p.2)
        let w2 : World :=
          { db := w.db
            disk_index := vectors
            disk_lookup := { questions := texts, answers := answers }
            disk_faq := faq_data
            mem := load_faiss_and_faq { faiss_index := vectors, faq_json := faq_data } }
        (RetrainResult.success texts.length, w2)

/-- Program counter of one in-flight `query_bot` call racing a reload. The
embedding has already been computed (it touches no global). The call reads
the global `index` at `index.search(...)` and the global `faq_data` at the
guard/lookup; these are two separate reads of the module globals. The
initial `is None` check is elided because in the scenarios modelled here
both globals hold a value at every reachable state, so the check never
triggers a load. -/
inductive QueryPC where
  | start : QueryPC
  | haveVecs : List (List ℚ) → QueryPC
  | doneQ : String → QueryPC
deriving DecidableEq

/-- Program counter of one in-flight `load_faiss_and_faq` call (as invoked
by the retrain route after writing the new snapshot): the source assigns
the global `index` first and the global `faq_data` afterwards, as two
separate statements. -/
inductive ReloadPC where
  | r0 : ReloadPC
  | r1 : ReloadPC
  | r2 : ReloadPC
deriving DecidableEq

/-- Joint state of the module globals, one query thread, and one reload
thread. -/
structure SysState where
  g : ChatbotGlobals
  q : QueryPC
  r : ReloadPC
deriving DecidableEq

/-- Interleaved small-step semantics of one `query_bot` call racing one
`load_faiss_and_faq` call that installs the snapshot `snap2`. `e` is the
query embedding. The query thread performs its two global reads as separate
steps; the reload thread performs its two global writes as separate steps,
`index` first. -/
inductive SysStep (e : List ℚ) (snap2 : Snapshot) : SysState → SysState → Prop
  | readIndex (g : ChatbotGlobals) (vecs : List (List ℚ)) (r : ReloadPC)
      (h : g.index = some vecs) :
      SysStep e snap2 ⟨g, QueryPC.start, r⟩ ⟨g, QueryPC.haveVecs vecs, r⟩
  | finishQuery (g : ChatbotGlobals) (vecs : List (List ℚ))
      (faq : List FaqRecord) (r : ReloadPC) (h : g.faq_data = some faq) :
      SysStep e snap2 ⟨g, QueryPC.haveVecs vecs, r⟩
        ⟨g, QueryPC.doneQ (answer_of vecs faq e), r⟩
  | writeIndex (g : ChatbotGlobals) (q : QueryPC) :
      SysStep e snap2 ⟨g, q, ReloadPC.r0⟩
        ⟨{ g with index := some snap2.faiss_index }, q, ReloadPC.r1⟩
  | writeFaq (g : ChatbotGlobals) (q : QueryPC) :
      SysStep e snap2 ⟨g, q, ReloadPC.r1⟩
        ⟨{ g with faq_data := some snap2.faq_json }, q, ReloadPC.r2⟩

/-- Reachability under the interleaved semantics. -/
abbrev SysReach (e : List ℚ) (snap2 : Snapshot) : SysState → SysState → Prop :=
  Relation.ReflTransGen (SysStep e snap2)

theorem nearestFrom_ne_none (q v : List ℚ) (rest : List (List ℚ)) (i : Nat) :
    nearestFrom q (v :: rest) i ≠ none := by
  simp only [nearestFrom]
  cases h : nearestFrom q rest (i + 1) with
  | none => simp
  | some pd =>
    obtain ⟨j, e⟩ := pd
    by_cases he : e < sqdist q v <;> simp [he]

theorem nearestFrom_spec (q : List ℚ) : ∀ (vecs : List (List ℚ)) (i p : Nat) (d : ℚ),
    nearestFrom q vecs i = some (p, d) →
    ∃ k, ∃ hk : k < vecs.length, p = i + k ∧ d = sqdist q (vecs.get ⟨k, hk⟩) ∧
      (∀ m (hm : m < vecs.length), d ≤ sqdist q (vecs.get ⟨m, hm⟩)) ∧
      (∀ m (hm : m < vecs.length), m < k → d < sqdist q (vecs.get ⟨m, hm⟩)) := by
  intro vecs
  induction vecs with
  | nil => intro i p d h; simp [nearestFrom] at h
  | cons v rest ih =>
    intro i p d h
    simp only [nearestFrom] at h
    cases hrec : nearestFrom q rest (i + 1) with
    | none =>
      rw [hrec] at h
      have hrest : rest = [] := by
        cases rest with
        | nil => rfl
        | cons w ws => exact absurd hrec (nearestFrom_ne_none q w ws (i + 1))
      subst hrest
      simp only [Option.some.injEq, Prod.mk.injEq] at h
      obtain ⟨hp, hd⟩ := h
      refine ⟨0, by simp, by omega, by simp [hd], ?_, ?_⟩
      · intro m hm
        have hm0 : m = 0 := by simpa using hm
        subst hm0
        simp [hd]
      · intro m hm hmk
        omega
    | some pd =>
      obtain ⟨j, e⟩ := pd
      rw [hrec] at h
      obtain ⟨k, hk, hjk, hde, hmin, hfirst⟩ := ih (i + 1) j e hrec
      dsimp only at h
      by_cases hlt : e < sqdist q v
      · rw [if_pos hlt] at h
        simp only [Option.some.injEq, Prod.mk.injEq] at h
        obtain ⟨hp, hd⟩ := h
        refine ⟨k + 1, by simpa using Nat.succ_lt_succ hk, by omega, ?_, ?_, ?_⟩
        · subst hd; simpa using hde
        · intro m hm
          cases m with
          | zero => subst hd; simpa using le_of_lt hlt
          | succ m2 =>
            subst hd
            have hm2 : m2 < rest.length := by simpa using hm
            simpa using hmin m2 hm2
        · intro m hm hmk
          cases m with
          | zero => subst hd; simpa using hlt
          | succ m2 =>
            subst hd
            have hm2 : m2 < rest.length := by simpa using hm
            simpa using hfirst m2 hm2 (by omega)
      · rw [if_neg hlt] at h
        simp only [Option.some.injEq, Prod.mk.injEq] at h
        obtain ⟨hp, hd⟩ := h
        push_neg at hlt
        refine ⟨0, by simp, by omega, by simp [hd], ?_, ?_⟩
        · intro m hm
          cases m with
          | zero => simp [hd]
          | succ m2 =>
            have hm2 : m2 < rest.length := by simpa using hm
            subst hd
            calc sqdist q v ≤ e := hlt
              _ ≤ _ := by simpa using hmin m2 hm2
        · intro m hm hmk
          omega

theorem answer_of_guard (vecs : List (List ℚ)) (faq : List FaqRecord)
    (e : List ℚ) (d : ℚ) (mi : Int) (hs : faiss_search vecs e = (d, mi))
    (hg : mi < 0 ∨ mi ≥ (faq.length : Int) ∨ d > DISTANCE_THRESHOLD) :
    answer_of vecs faq e = FALLBACK_MESSAGE := by
  simp only [answer_of, hs]
  rw [if_pos hg]

theorem answer_of_hit (vecs : List (List ℚ)) (faq : List FaqRecord)
    (e : List ℚ) (d : ℚ) (mi : Int) (hs : faiss_search vecs e = (d, mi))
    (h0 : 0 ≤ mi) (h1 : mi < (faq.length : Int)) (h2 : d ≤ DISTANCE_THRESHOLD) :
    ∃ entry, faq[mi.toNat]? = some entry ∧ answer_of vecs faq e = entry.answer := by
  have hlt : mi.toNat < faq.length := by omega
  obtain ⟨entry, hentry⟩ : ∃ entry, faq[mi.toNat]? = some entry :=
    ⟨faq[mi.toNat], List.getElem?_eq_getElem hlt⟩
  refine ⟨entry, hentry, ?_⟩
  simp only [answer_of, hs]
  rw [if_neg, hentry]
  push_neg
  exact ⟨h0, h1, h2⟩

theorem answer_of_cases (vecs : List (List ℚ)) (faq : List FaqRecord) (e : List ℚ) :
    answer_of vecs faq e = FALLBACK_MESSAGE ∨
    ∃ entry, entry ∈ faq ∧ answer_of vecs faq e = entry.answer := by
  simp only [answer_of]
  split
  · exact Or.inl rfl
  · cases hentry : faq[(faiss_search vecs e).2.toNat]? with
    | none => exact Or.inl rfl
    | some entry =>
      right
      exact ⟨entry, List.getElem?_mem hentry, rfl⟩

theorem encodeBatch_length (get_embedding : String → Option (List ℚ)) :
    ∀ (ts : List String) (vs : List (List ℚ)),
      encodeBatch get_embedding ts = some vs → vs.length = ts.length := by
  intro ts
  induction ts with
  | nil => intro vs h; simp [encodeBatch] at h; simp [← h]
  | cons t rest ih =>
    intro vs h
    simp only [encodeBatch] at h
    cases hv : get_embedding t with
    | none => rw [hv] at h; simp at h
    | some v =>
      rw [hv] at h
      cases hrest : encodeBatch get_embedding rest with
      | none => rw [hrest] at h; simp at h
      | some vs2 =>
        rw [hrest] at h
        simp only [Option.some.injEq] at h
        subst h
        simp [ih vs2 hrest]

theorem encodeBatch_none_of_mem (get_embedding : String → Option (List ℚ)) :
    ∀ (ts : List String) (t : String), t ∈ ts → get_embedding t = none →
      encodeBatch get_embedding ts = none := by
  intro ts
  induction ts with
  | nil => intro t h; simp at h
  | cons u rest ih =>
    intro t hmem hfail
    simp only [encodeBatch]
    rcases List.mem_cons.mp hmem with h | h
    · subst h; rw [hfail]
    · rw [ih t h hfail]
      cases get_embedding u <;> rfl

theorem query_bot_loaded (get_embedding : String → Option (List ℚ))
    (vecs : List (List ℚ)) (faq : List FaqRecord) (snap : Snapshot)
    (q : String) (e : List ℚ) (hemb : get_embedding q = some e) :
    query_bot get_embedding ⟨some vecs, some faq⟩ snap q = answer_of vecs faq e := by
  simp [query_bot, ensure_loaded, hemb]

/-- Claim C1: with a loaded generation and a successful embedding,
`query_bot` classifies the search result by the strict-greater comparison
against the threshold 1.0: an out-of-range position or a distance strictly
above the threshold yields the fallback, and otherwise — including a
distance exactly equal to the threshold — the answer at the returned
position is served. -/
theorem match_threshold_strict_greater (get_embedding : String → Option (List ℚ))
    (snap : Snapshot) (vecs : List (List ℚ)) (faq : List FaqRecord)
    (q : String) (e : List ℚ) (d : ℚ) (mi : Int)
    (hemb : get_embedding q = some e)
    (hs : faiss_search vecs e = (d, mi)) :
    ((mi < 0 ∨ mi ≥ (faq.length : Int) ∨ d > DISTANCE_THRESHOLD) →
      query_bot get_embedding ⟨some vecs, some faq⟩ snap q = FALLBACK_MESSAGE) ∧
    (0 ≤ mi → mi < (faq.length : Int) → d ≤ DISTANCE_THRESHOLD →
      ∃ entry, faq[mi.toNat]? = some entry ∧
        query_bot get_embedding ⟨some vecs, some faq⟩ snap q = entry.answer) := by
  constructor
  · intro hg
    rw [query_bot_loaded get_embedding vecs faq snap q e hemb]
    exact answer_of_guard vecs faq e d mi hs hg
  · intro h0 h1 h2
    rw [query_bot_loaded get_embedding vecs faq snap q e hemb]
    exact answer_of_hit vecs faq e d mi hs h0 h1 h2

/-- Witness for C1 at the threshold boundary: a one-record index whose
stored vector is at squared distance exactly 1.0 from the query embedding
is answered (not the fallback), while squared distance 4 yields the
fallback. -/
theorem match_threshold_strict_greater_witness :
    query_bot (fun _ => some [0]) ⟨some [[1]], some [⟨"q0", "a0"⟩]⟩ ⟨[], []⟩ "x" = "a0" ∧
    query_bot (fun _ => some [0]) ⟨some [[2]], some [⟨"q0", "a0"⟩]⟩ ⟨[], []⟩ "x" =
      FALLBACK_MESSAGE := by
  constructor
  · obtain ⟨entry, hent, hq⟩ :=
      (match_threshold_strict_greater (fun _ => some [0]) ⟨[], []⟩ [[1]]
        [⟨"q0", "a0"⟩] "x" [0] 1 0 rfl
        (by norm_num [faiss_search, nearestFrom, sqdist])).2
        (by norm_num) (by norm_num) (by norm_num [DISTANCE_THRESHOLD])
    have hentry : entry = ⟨"q0", "a0"⟩ := by
      simp only [Int.toNat_zero, List.getElem?_cons_zero, Option.some.injEq] at hent
      exact hent.symm
    rw [hq, hentry]
  · exact (match_threshold_strict_greater (fun _ => some [0]) ⟨[], []⟩ [[2]]
      [⟨"q0", "a0"⟩] "x" [0] 4 0 rfl
      (by norm_num [faiss_search, nearestFrom, sqdist])).1
      (Or.inr (Or.inr (by norm_num [DISTANCE_THRESHOLD])))

/-- Claim C2: `query_bot` is a total function: for every input it returns a
string, and that string is either the fixed fallback message or the answer
field of some record of the generation it served; an embedding failure in
particular is downgraded to the fallback. -/
theorem query_bot_never_raises (get_embedding : String → Option (List ℚ))
    (g : ChatbotGlobals) (snap : Snapshot) (q : String) :
    (get_embedding q = none → query_bot get_embedding g snap q = FALLBACK_MESSAGE) ∧
    (query_bot get_embedding g snap q = FALLBACK_MESSAGE ∨
      ∃ faq entry, (ensure_loaded g snap).faq_data = some faq ∧ entry ∈ faq ∧
        query_bot get_embedding g snap q = entry.answer) := by
  cases hI : (ensure_loaded g snap).index with
  | none =>
    constructor
    · intro hemb; simp [query_bot, hI]
    · left; simp [query_bot, hI]
  | some vecs =>
    cases hF : (ensure_loaded g snap).faq_data with
    | none =>
      constructor
      · intro hemb; simp [query_bot, hI, hF]
      · left; simp [query_bot, hI, hF]
    | some faq =>
      cases hemb : get_embedding q with
      | none =>
        constructor
        · intro hemb2; simp [query_bot, hI, hF, hemb]
        · left; simp [query_bot, hI, hF, hemb]
      | some e =>
        constructor
        · intro hemb2; exact absurd hemb2 (by simp)
        · have hq : query_bot get_embedding g snap q = answer_of vecs faq e := by
            simp [query_bot, hI, hF, hemb]
          rcases answer_of_cases vecs faq e with hcase | ⟨entry, hmem, hcase⟩
          · left; rw [hq, hcase]
          · right; exact ⟨faq, entry, rfl, hmem, by rw [hq, hcase]⟩

/-- Witness for C2: a failing embedding provider on an unloaded state still
produces the fallback, and the result is one of the two variants. -/
theorem query_bot_never_raises_witness :
    ((fun (_ : String) => (none : Option (List ℚ))) "hi" = none →
      query_bot (fun _ => none) ⟨none, none⟩ ⟨[], []⟩ "hi" = FALLBACK_MESSAGE) ∧
    (query_bot (fun _ => none) ⟨none, none⟩ ⟨[], []⟩ "hi" = FALLBACK_MESSAGE ∨
      ∃ faq entry, (ensure_loaded ⟨none, none⟩ ⟨[], []⟩).faq_data = some faq ∧
        entry ∈ faq ∧
        query_bot (fun _ => none) ⟨none, none⟩ ⟨[], []⟩ "hi" = entry.answer) :=
  query_bot_never_raises (fun _ => none) ⟨none, none⟩ ⟨[], []⟩ "hi"

/-- Claim C9: when either global is absent, `query_bot` first reloads both
from the persisted snapshot and then serves the query exactly as it would
have against the already-loaded generation. -/
theorem query_bot_reloads_when_absent (get_embedding : String → Option (List ℚ))
    (g : ChatbotGlobals) (snap : Snapshot) (q : String)
    (h : g.index = none ∨ g.faq_data = none) :
    query_bot get_embedding g snap q =
      query_bot get_embedding (load_faiss_and_faq snap) snap q := by
  have h1 : ensure_loaded g snap = load_faiss_and_faq snap := by
    unfold ensure_loaded
    rcases h with h | h <;> simp [h]
  have h2 : ensure_loaded (load_faiss_and_faq snap) snap = load_faiss_and_faq snap := by
    simp [ensure_loaded, load_faiss_and_faq]
  simp only [query_bot, h1, h2]

/-- Witness for C9: with `index` still `None`, a query against the empty
globals equals the query against the freshly loaded snapshot. -/
theorem query_bot_reloads_when_absent_witness :
    query_bot (fun _ => some [0]) ⟨none, none⟩ ⟨[[0]], [⟨"q0", "a0"⟩]⟩ "x" =
      query_bot (fun _ => some [0])
        (load_faiss_and_faq ⟨[[0]], [⟨"q0", "a0"⟩]⟩) ⟨[[0]], [⟨"q0", "a0"⟩]⟩ "x" :=
  query_bot_reloads_when_absent (fun _ => some [0]) ⟨none, none⟩
    ⟨[[0]], [⟨"q0", "a0"⟩]⟩ "x" (Or.inl rfl)

/-- Claim C10: the guard checks the returned position against 0, so a
negative sentinel position always produces the fallback, and any returned
answer is read from a position p with 0 ≤ p < len(faq_data). -/
theorem query_bot_position_guard (get_embedding : String → Option (List ℚ))
    (g : ChatbotGlobals) (snap : Snapshot) (q : String)
    (vecs : List (List ℚ)) (faq : List FaqRecord) (e : List ℚ) (d : ℚ) (mi : Int)
    (hI : (ensure_loaded g snap).index = some vecs)
    (hF : (ensure_loaded g snap).faq_data = some faq)
    (hemb : get_embedding q = some e)
    (hs : faiss_search vecs e = (d, mi)) :
    (mi < 0 → query_bot get_embedding g snap q = FALLBACK_MESSAGE) ∧
    (query_bot get_embedding g snap q = FALLBACK_MESSAGE ∨
      ∃ p, ∃ hp : p < faq.length, 0 ≤ mi ∧ mi.toNat = p ∧
        query_bot get_embedding g snap q = (faq.get ⟨p, hp⟩).answer) := by
  have hq : query_bot get_embedding g snap q = answer_of vecs faq e := by
    simp [query_bot, hI, hF, hemb]
  constructor
  · intro hneg
    rw [hq]
    exact answer_of_guard vecs faq e d mi hs (Or.inl hneg)
  · by_cases hg : mi < 0 ∨ mi ≥ (faq.length : Int) ∨ d > DISTANCE_THRESHOLD
    · left
      rw [hq]
      exact answer_of_guard vecs faq e d mi hs hg
    · right
      push_neg at hg
      obtain ⟨h0, h1, h2⟩ := hg
      obtain ⟨entry, hent, hans⟩ := answer_of_hit vecs faq e d mi hs h0 h1 h2
      have hp : mi.toNat < faq.length := by omega
      refine ⟨mi.toNat, hp, h0, rfl, ?_⟩
      rw [hq, hans]
      have : faq[mi.toNat]? = some (faq.get ⟨mi.toNat, hp⟩) :=
        List.getElem?_eq_getElem hp
      rw [this] at hent
      simp only [Option.some.injEq] at hent
      rw [← hent]

/-- Witness for C10: on an empty index the FAISS sentinel position is -1
and the query falls back; on a one-record index the served answer comes
from position 0. -/
theorem query_bot_position_guard_witness :
    query_bot (fun _ => some [0]) ⟨some [], some [⟨"q0", "a0"⟩]⟩ ⟨[], []⟩ "x" =
      FALLBACK_MESSAGE := by
  refine (query_bot_position_guard (fun _ => some [0])
    ⟨some [], some [⟨"q0", "a0"⟩]⟩ ⟨[], []⟩ "x" [] [⟨"q0", "a0"⟩] [0]
    FAISS_FLT_MAX (-1) ?_ ?_ rfl ?_).1 (by norm_num)
  · simp [ensure_loaded]
  · simp [ensure_loaded]
  · norm_num [faiss_search, nearestFrom]

/-- Claim C4: on an empty corpus the retrain route reports the distinct
empty-corpus outcome (`{"status": "No data to retrain", "count": 0}`, the
EmptyCorpus surface of the spec) before any artifact is written or any
global reassigned, so the whole world — persisted files and the in-memory
generation alike — is left unchanged and serving. -/
theorem retrain_empty_corpus_rejected (get_embedding : String → Option (List ℚ))
    (w : World) (h : w.db = some []) :
    retrain_index get_embedding w = (RetrainResult.noData, w) := by
  simp [retrain_index, h]

/-- Witness for C4: a concrete world with an empty corpus and a loaded
previous generation is returned untouched. -/
theorem retrain_empty_corpus_rejected_witness :
    retrain_index (fun _ => some [0])
      ⟨some [], [[0]], ⟨["q0"], ["a0"]⟩, [⟨"q0", "a0"⟩],
        ⟨some [[0]], some [⟨"q0", "a0"⟩]⟩⟩ =
      (RetrainResult.noData,
        ⟨some [], [[0]], ⟨["q0"], ["a0"]⟩, [⟨"q0", "a0"⟩],
          ⟨some [[0]], some [⟨"q0", "a0"⟩]⟩⟩) :=
  retrain_empty_corpus_rejected (fun _ => some [0]) _ rfl

/-- Claim C5: if the embedding provider fails on any question of the
corpus, the batch `model.encode` call raises, the blanket handler turns
the rebuild into the HTTP 500 failure, and — because the failure occurs
before any of the three artifacts is written and before the in-memory
reload — the previous generation, persisted and in-memory alike, is left
exactly as it was: the vector blob and the metadata are both untouched. -/
theorem retrain_embedding_failure_aborts (get_embedding : String → Option (List ℚ))
    (w : World) (faqs : List FaqRecord) (f : FaqRecord)
    (hdb : w.db = some faqs) (hf : f ∈ faqs) (hfail : get_embedding f.question = none) :
    retrain_index get_embedding w = (RetrainResult.retrainFailed, w) := by
  have hne : faqs ≠ [] := by rintro rfl; simp at hf
  have henc : encodeBatch get_embedding (faqs.map (fun x => x.question)) = none :=
    encodeBatch_none_of_mem get_embedding _ f.question
      (List.mem_map_of_mem _ hf) hfail
  simp [retrain_index, hdb, hne, henc]

/-- Witness for C5: an embedding provider that fails on the second question
aborts the rebuild and returns the concrete world unchanged. -/
theorem retrain_embedding_failure_aborts_witness :
    retrain_index (fun s => if s = "q1" then none else some [0])
      ⟨some [⟨"q0", "a0"⟩, ⟨"q1", "a1"⟩], [[0]], ⟨["q0"], ["a0"]⟩, [⟨"q0", "a0"⟩],
        ⟨some [[0]], some [⟨"q0", "a0"⟩]⟩⟩ =
      (RetrainResult.retrainFailed,
        ⟨some [⟨"q0", "a0"⟩, ⟨"q1", "a1"⟩], [[0]], ⟨["q0"], ["a0"]⟩, [⟨"q0", "a0"⟩],
          ⟨some [[0]], some [⟨"q0", "a0"⟩]⟩⟩) :=
  retrain_embedding_failure_aborts (fun s => if s = "q1" then none else some [0])
    _ [⟨"q0", "a0"⟩, ⟨"q1", "a1"⟩] ⟨"q1", "a1"⟩ rfl (by simp) (by simp)

/-- Counterexample to C8 as stated: a persisted snapshot whose vector blob
has two rows but whose metadata has a single record is installed verbatim
by `load_faiss_and_faq` (which performs no count validation) and then
serves queries, so a violation of the length invariant is an ordinary
runtime state observable at query time — the query below completes
normally against it — rather than being confined to a build-time fatal
error. -/
theorem serving_mismatched_generation_observable :
    (load_faiss_and_faq ⟨[[0], [5]], [⟨"q0", "a0"⟩]⟩).index = some [[0], [5]] ∧
    (load_faiss_and_faq ⟨[[0], [5]], [⟨"q0", "a0"⟩]⟩).faq_data = some [⟨"q0", "a0"⟩] ∧
    ([[0], [5]] : List (List ℚ)).length ≠ ([⟨"q0", "a0"⟩] : List FaqRecord).length ∧
    query_bot (fun _ => some [5]) (load_faiss_and_faq ⟨[[0], [5]], [⟨"q0", "a0"⟩]⟩)
      ⟨[[0], [5]], [⟨"q0", "a0"⟩]⟩ "any" = FALLBACK_MESSAGE := by
  refine ⟨rfl, rfl, by norm_num, ?_⟩
  dsimp only [load_faiss_and_faq]
  rw [query_bot_loaded (fun _ => some [5]) [[0], [5]] [⟨"q0", "a0"⟩] _ "any" [5] rfl]
  exact answer_of_guard [[0], [5]] [⟨"q0", "a0"⟩] [5] 0 1
    (by norm_num [faiss_search, nearestFrom, sqdist]) (by norm_num)

/-- Claim C8 as amended: every generation constructed by a successful
rebuild satisfies the length invariant — the vector blob, the lookup
artifact and the metadata all have exactly one entry per corpus record,
with position the only linkage — and the in-memory generation equals the
freshly persisted one; served generations, however, are not validated on
load, so the invariant can be violated by a mismatched persisted snapshot
at query time. -/
theorem retrain_success_generation_consistent (get_embedding : String → Option (List ℚ))
    (w w2 : World) (n : Nat)
    (h : retrain_index get_embedding w = (RetrainResult.success n, w2)) :
    w2.disk_index.length = n ∧ w2.disk_faq.length = n ∧
    w2.disk_lookup.questions.length = n ∧ w2.disk_lookup.answers.length = n ∧
    w2.mem = { index := some w2.disk_index, faq_data := some w2.disk_faq } := by
  simp only [retrain_index] at h
  cases hdb : w.db with
  | none => rw [hdb] at h; simp at h
  | some faqs =>
    rw [hdb] at h
    dsimp only at h
    by_cases hne : faqs = []
    · rw [if_pos hne] at h; simp at h
    · rw [if_neg hne] at h
      cases henc : encodeBatch get_embedding (faqs.map fun f => f.question) with
      | none => rw [henc] at h; simp at h
      | some vectors =>
        rw [henc] at h
        dsimp only at h
        simp only [Prod.mk.injEq, RetrainResult.success.injEq] at h
        obtain ⟨hn, hw⟩ := h
        have hvl : vectors.length = faqs.length := by
          have := encodeBatch_length get_embedding (faqs.map fun f => f.question)
            vectors henc
          simpa using this
        have hfl : faqs.length = n := by simpa using hn
        subst hw
        refine ⟨?_, ?_, ?_, ?_, ?_⟩
        · simp [hvl, hfl]
        · simp [hfl]
        · simp [hfl]
        · simp [hfl]
        · simp [load_faiss_and_faq]

/-- Witness for C8 (amended): a successful rebuild over a two-record corpus
produces a generation with two vectors, two lookup rows and two metadata
records, installed in memory. -/
theorem retrain_success_generation_consistent_witness :
    retrain_index (fun _ => some [0])
      ⟨some [⟨"q0", "a0"⟩, ⟨"q1", "a1"⟩], [], ⟨[], []⟩, [], ⟨none, none⟩⟩ =
      (RetrainResult.success 2,
        ⟨some [⟨"q0", "a0"⟩, ⟨"q1", "a1"⟩], [[0], [0]], ⟨["q0", "q1"], ["a0", "a1"]⟩,
          [⟨"q0", "a0"⟩, ⟨"q1", "a1"⟩],
          ⟨some [[0], [0]], some [⟨"q0", "a0"⟩, ⟨"q1", "a1"⟩]⟩⟩) ∧
    ([[0], [0]] : List (List ℚ)).length = 2 ∧
    ([⟨"q0", "a0"⟩, ⟨"q1", "a1"⟩] : List FaqRecord).length = 2 := by
  have hrun : retrain_index (fun _ => some [0])
      ⟨some [⟨"q0", "a0"⟩, ⟨"q1", "a1"⟩], [], ⟨[], []⟩, [], ⟨none, none⟩⟩ =
      (RetrainResult.success 2,
        ⟨some [⟨"q0", "a0"⟩, ⟨"q1", "a1"⟩], [[0], [0]], ⟨["q0", "q1"], ["a0", "a1"]⟩,
          [⟨"q0", "a0"⟩, ⟨"q1", "a1"⟩],
          ⟨some [[0], [0]], some [⟨"q0", "a0"⟩, ⟨"q1", "a1"⟩]⟩⟩) := by
    simp only [retrain_index, encodeBatch]
    rw [if_neg (by simp)]
    simp [load_faiss_and_faq]
  have h := retrain_success_generation_consistent (fun _ => some [0])
    ⟨some [⟨"q0", "a0"⟩, ⟨"q1", "a1"⟩], [], ⟨[], []⟩, [], ⟨none, none⟩⟩
    ⟨some [⟨"q0", "a0"⟩, ⟨"q1", "a1"⟩], [[0], [0]], ⟨["q0", "q1"], ["a0", "a1"]⟩,
      [⟨"q0", "a0"⟩, ⟨"q1", "a1"⟩],
      ⟨some [[0], [0]], some [⟨"q0", "a0"⟩, ⟨"q1", "a1"⟩]⟩⟩ 2 hrun
  exact ⟨hrun, h.1, h.2.1⟩

/-- Counterexample to C6 as stated: `load_faiss_and_faq` installs a
snapshot whose vector blob has two rows but whose metadata holds a single
record, with no failure of any kind — the source compares no counts — so a
generation with mismatched counts is installed as the active index. -/
theorem load_installs_mismatched_counts :
    load_faiss_and_faq ⟨[[0], [1]], [⟨"q", "a"⟩]⟩ =
      { index := some [[0], [1]], faq_data := some [⟨"q", "a"⟩] } ∧
    ([[0], [1]] : List (List ℚ)).length ≠ ([⟨"q", "a"⟩] : List FaqRecord).length :=
  ⟨rfl, by norm_num⟩

/-- Claim C6 as amended: loading performs no record-count validation — it
installs the vector blob and the metadata verbatim, even when their counts
disagree — and the mismatch is tolerated on the query path instead: a
nearest position at or beyond the metadata record count is downgraded to
the fallback by the range guard. -/
theorem load_mismatch_tolerated (snap : Snapshot)
    (get_embedding : String → Option (List ℚ)) (q : String)
    (e : List ℚ) (d : ℚ) (mi : Int)
    (hemb : get_embedding q = some e)
    (hs : faiss_search snap.faiss_index e = (d, mi))
    (hmi : mi ≥ (snap.faq_json.length : Int)) :
    load_faiss_and_faq snap =
      { index := some snap.faiss_index, faq_data := some snap.faq_json } ∧
    query_bot get_embedding (load_faiss_and_faq snap) snap q = FALLBACK_MESSAGE := by
  refine ⟨rfl, ?_⟩
  dsimp only [load_faiss_and_faq]
  rw [query_bot_loaded get_embedding snap.faiss_index snap.faq_json snap q e hemb]
  exact answer_of_guard _ _ e d mi hs (Or.inr (Or.inl hmi))

/-- Witness for C6 (amended): a snapshot with one vector and zero metadata
records loads without error and the query whose nearest position lands
beyond the metadata falls back. -/
theorem load_mismatch_tolerated_witness :
    load_faiss_and_faq ⟨[[0]], []⟩ = { index := some [[0]], faq_data := some [] } ∧
    query_bot (fun _ => some [0]) (load_faiss_and_faq ⟨[[0]], []⟩) ⟨[[0]], []⟩ "x" =
      FALLBACK_MESSAGE :=
  load_mismatch_tolerated ⟨[[0]], []⟩ (fun _ => some [0]) "x" [0] 0 0 rfl
    (by norm_num [faiss_search, nearestFrom, sqdist]) (by norm_num)

/-- Claim C7: on a non-empty index and a query vector of the index
dimension, the nearest-neighbour search returns the position of the
minimal squared Euclidean distance together with that distance, ties are
broken towards the smallest position, and the returned pair is unique
(deterministic) for a fixed generation and query vector. -/
theorem nearest_exact_first_min (e : List ℚ) (vecs : List (List ℚ))
    (hne : vecs ≠ []) (hdim : ∀ v ∈ vecs, v.length = e.length) :
    ∃ p d, nearestFrom e vecs 0 = some (p, d) ∧
      ∃ hp : p < vecs.length,
        d = sqdist e (vecs.get ⟨p, hp⟩) ∧
        (∀ m (hm : m < vecs.length), d ≤ sqdist e (vecs.get ⟨m, hm⟩)) ∧
        (∀ m (hm : m < vecs.length), m < p → d < sqdist e (vecs.get ⟨m, hm⟩)) ∧
        (∀ p2 d2, nearestFrom e vecs 0 = some (p2, d2) → p2 = p ∧ d2 = d) := by
  cases hsearch : nearestFrom e vecs 0 with
  | none =>
    cases vecs with
    | nil => exact absurd rfl hne
    | cons v rest => exact absurd hsearch (nearestFrom_ne_none e v rest 0)
  | some pd =>
    obtain ⟨p, d⟩ := pd
    obtain ⟨k, hk, hpk, hd, hmin, hfirst⟩ := nearestFrom_spec e vecs 0 p d hsearch
    have hkp : k = p := by omega
    subst hkp
    refine ⟨k, d, rfl, hk, hd, hmin, ?_, ?_⟩
    · intro m hm hmp
      exact hfirst m hm hmp
    · intro p2 d2 h2
      simp only [Option.some.injEq, Prod.mk.injEq] at h2
      exact ⟨h2.1.symm, h2.2.symm⟩

/-- Witness for C7: a three-vector index where positions 1 and 2 tie at the
minimal distance; the search settles on position 1, the smaller one. -/
theorem nearest_exact_first_min_witness :
    ∃ p d, nearestFrom [0] [[1], [0], [0]] 0 = some (p, d) ∧
      ∃ hp : p < ([[1], [0], [0]] : List (List ℚ)).length,
        d = sqdist [0] (([[1], [0], [0]] : List (List ℚ)).get ⟨p, hp⟩) ∧
        (∀ m (hm : m < ([[1], [0], [0]] : List (List ℚ)).length),
          d ≤ sqdist [0] (([[1], [0], [0]] : List (List ℚ)).get ⟨m, hm⟩)) ∧
        (∀ m (hm : m < ([[1], [0], [0]] : List (List ℚ)).length), m < p →
          d < sqdist [0] (([[1], [0], [0]] : List (List ℚ)).get ⟨m, hm⟩)) ∧
        (∀ p2 d2, nearestFrom [0] [[1], [0], [0]] 0 = some (p2, d2) →
          p2 = p ∧ d2 = d) :=
  nearest_exact_first_min [0] [[1], [0], [0]] (by simp)
    (by
      intro v hv
      simp only [List.mem_cons, List.not_mem_nil, or_false] at hv
      rcases hv with rfl | rfl | rfl <;> rfl)

/-- Counterexample to C3 as stated: the reload is not an atomic swap. A
query that begins against generation G1 (vectors `[[0],[10]]` with answers
`a0`/`a1`) and is interleaved with a reload publishing G2 (vectors
`[[10],[0]]` with answers `b0`/`b1`) can read G1's vectors and G2's
metadata; with query embedding `[0]` it then returns `b0` — an answer that
no consistent run against either generation produces (`G1` alone gives
`a0`, `G2` alone gives `b1`), so the query observed a mixed generation. -/
theorem query_observes_mixed_generation :
    SysReach [0] ⟨[[10], [0]], [⟨"p0", "b0"⟩, ⟨"p1", "b1"⟩]⟩
      ⟨⟨some [[0], [10]], some [⟨"q0", "a0"⟩, ⟨"q1", "a1"⟩]⟩,
        QueryPC.start, ReloadPC.r0⟩
      ⟨⟨some [[10], [0]], some [⟨"p0", "b0"⟩, ⟨"p1", "b1"⟩]⟩,
        QueryPC.doneQ "b0", ReloadPC.r2⟩ ∧
    answer_of [[0], [10]] [⟨"q0", "a0"⟩, ⟨"q1", "a1"⟩] [0] = "a0" ∧
    answer_of [[10], [0]] [⟨"p0", "b0"⟩, ⟨"p1", "b1"⟩] [0] = "b1" ∧
    ("b0" : String) ≠ "a0" ∧ ("b0" : String) ≠ "b1" := by
  have hmix : answer_of [[0], [10]] [⟨"p0", "b0"⟩, ⟨"p1", "b1"⟩] [0] = "b0" := by
    norm_num [answer_of, faiss_search, nearestFrom, sqdist, DISTANCE_THRESHOLD]
  refine ⟨?_, ?_, ?_, by decide, by decide⟩
  · have chain : SysReach [0] ⟨[[10], [0]], [⟨"p0", "b0"⟩, ⟨"p1", "b1"⟩]⟩
        ⟨⟨some [[0], [10]], some [⟨"q0", "a0"⟩, ⟨"q1", "a1"⟩]⟩,
          QueryPC.start, ReloadPC.r0⟩
        ⟨⟨some [[10], [0]], some [⟨"p0", "b0"⟩, ⟨"p1", "b1"⟩]⟩,
          QueryPC.doneQ (answer_of [[0], [10]] [⟨"p0", "b0"⟩, ⟨"p1", "b1"⟩] [0]),
          ReloadPC.r2⟩ :=
      Relation.ReflTransGen.head (SysStep.readIndex _ _ _ rfl)
        (Relation.ReflTransGen.head (SysStep.writeIndex _ _)
          (Relation.ReflTransGen.head (SysStep.writeFaq _ _)
            (Relation.ReflTransGen.head (SysStep.finishQuery _ _ _ _ rfl)
              Relation.ReflTransGen.refl)))
    rw [hmix] at chain
    exact chain
  · norm_num [answer_of, faiss_search, nearestFrom, sqdist, DISTANCE_THRESHOLD]
  · norm_num [answer_of, faiss_search, nearestFrom, sqdist, DISTANCE_THRESHOLD]

/-- Claim C3 as amended: publication is not one atomic swap — `index` and
`faq_data` are two module globals assigned one after the other, and a query
re-reads each at its point of use, so a query interleaved with a reload can
observe the old vectors paired with the new metadata (see the
counterexample). What does hold: a query that starts after the reload has
fully completed runs entirely against the newly installed generation and
returns exactly its answer. -/
theorem query_after_completed_reload_sees_new_generation
    (e : List ℚ) (snap2 : Snapshot) (vecs : List (List ℚ)) (faq : List FaqRecord)
    (s2 : SysState) (res : String)
    (hreach : SysReach e snap2
      ⟨⟨some vecs, some faq⟩, QueryPC.start, ReloadPC.r2⟩ s2)
    (hdone : s2.q = QueryPC.doneQ res) :
    res = answer_of vecs faq e := by
  have hinv : s2.r = ReloadPC.r2 ∧ s2.g = ⟨some vecs, some faq⟩ ∧
      (s2.q = QueryPC.start ∨ s2.q = QueryPC.haveVecs vecs ∨
        s2.q = QueryPC.doneQ (answer_of vecs faq e)) := by
    clear hdone
    induction hreach with
    | refl => exact ⟨rfl, rfl, Or.inl rfl⟩
    | tail hab hbc ih =>
      obtain ⟨hr, hg, hq⟩ := ih
      cases hbc with
      | readIndex g vecs2 r h =>
        have hg2 : g = { index := some vecs, faq_data := some faq } := hg
        have hv2 : vecs2 = vecs := by
          rw [hg2] at h
          simpa using h.symm
        subst hv2
        exact ⟨hr, hg, Or.inr (Or.inl rfl)⟩
      | finishQuery g vecs2 faq2 r h =>
        have hg2 : g = { index := some vecs, faq_data := some faq } := hg
        have hf2 : faq2 = faq := by
          rw [hg2] at h
          simpa using h.symm
        subst hf2
        rcases hq with hq | hq | hq
        · simp at hq
        · have hv2 : vecs2 = vecs := by simpa using hq
          subst hv2
          exact ⟨hr, hg, Or.inr (Or.inr rfl)⟩
        · simp at hq
      | writeIndex g q => simp at hr
      | writeFaq g q => simp at hr
  obtain ⟨hr2, hg2, hq2⟩ := hinv
  rcases hq2 with h | h | h
  · rw [hdone] at h; simp at h
  · rw [hdone] at h; simp at h
  · rw [hdone] at h
    simpa using h

/-- Witness for C3 (amended): a query running with the reload already
finished returns the installed generation's answer. -/
theorem query_after_completed_reload_sees_new_generation_witness :
    ("a" : String) = answer_of [[0]] [⟨"q", "a"⟩] [0] := by
  have hans : answer_of [[0]] [⟨"q", "a"⟩] [0] = "a" := by
    norm_num [answer_of, faiss_search, nearestFrom, sqdist, DISTANCE_THRESHOLD]
  apply query_after_completed_reload_sees_new_generation [0] ⟨[], []⟩ [[0]]
    [⟨"q", "a"⟩] ⟨⟨some [[0]], some [⟨"q", "a"⟩]⟩, QueryPC.doneQ "a", ReloadPC.r2⟩
    "a" ?_ rfl
  have chain : SysReach [0] ⟨[], []⟩
      ⟨⟨some [[0]], some [⟨"q", "a"⟩]⟩, QueryPC.start, ReloadPC.r2⟩
      ⟨⟨some [[0]], some [⟨"q", "a"⟩]⟩,
        QueryPC.doneQ (answer_of [[0]] [⟨"q", "a"⟩] [0]), ReloadPC.r2⟩ :=
    Relation.ReflTransGen.head (SysStep.readIndex _ _ _ rfl)
      (Relation.ReflTransGen.head (SysStep.finishQuery _ _ _ _ rfl)
        Relation.ReflTransGen.refl)
  rw [hans] at chain
  exact chain
